import Mathlib

/-!
Shallow embedding of the pre-breakout scanner (`scanner.py`):
signal evaluation (`analyze_ticker`), batch scheduling (`batches_for_run`),
the per-ticker orchestration step of `main`, and the persisted-state
round trip (`save_state` / `load_state`).

Prices are modelled as rationals, volumes as naturals; Python `int(x)` on a
non-negative mean is floor, hence natural division.  External calls are
modelled by their results: a market-history fetch is `Except String (List Bar)`
(an exception is the `.error` case, caught by the evaluator), sentiment is
`Option ℚ`, and notification delivery is an oracle `Notification → Bool`
whose result the orchestrator ignores, exactly as the source ignores the
return value of `send_discord`.
-/

namespace Scanner

/-! ### Configuration constants (scanner.py lines 10-25) -/

def MAX_TICKERS : ℕ := 1000
def BATCH_SIZE : ℕ := 50
def GAP_THRESHOLD : ℚ := 3
def VOLUME_MULTIPLIER : ℚ := 2
def BREAKOUT_LOOKBACK : ℕ := 20
def SENTIMENT_POSITIVE : ℚ := 1/5
def THRESHOLDS : List ℤ := [5, 10, 20]

/-! ### Data model -/

/-- One daily OHLCV bar of the yfinance history. -/
structure Bar where
  openPrice : ℚ
  high : ℚ
  low : ℚ
  close : ℚ
  volume : ℕ
deriving DecidableEq, Repr, Inhabited

/-- Per-ticker alert record: `alerts_sent[ticker]` in the source, with the
same defaults as `.get("thresholds", [])` / `.get("prebreak", False)`. -/
structure AlertRec where
  thresholds : List ℤ
  prebreak : Bool
deriving DecidableEq, Repr, Inhabited

/-- The four trigger kinds built at scanner.py lines 183-191 (the source
stores human-readable strings; only the kind matters to the logic). -/
inductive Trigger where
  | gap
  | unusualVol
  | breakout
  | positiveSentiment
deriving DecidableEq, Repr

/-- The findings dict returned by `analyze_ticker` (lines 200-210, plus the
`prebreak_hit` key added at line 219). -/
structure AnalyzeResult where
  ticker : String
  price : ℚ
  change_pct : ℚ
  vol : ℕ
  avg_vol : ℕ
  triggers : List Trigger
  new_thresholds : List ℤ
  pos_news : Bool
  sentiment : Option ℚ
  prebreak_hit : Bool
deriving DecidableEq, Repr

/-! ### Helpers on lists -/

/-- pandas `Series.tail n`: the last `n` elements. -/
def lastN (n : ℕ) (l : List α) : List α := l.drop (l.length - n)

/-- pandas `.max()` over a series; only used on non-empty lists. -/
def listMax : List ℚ → ℚ
  | [] => 0
  | a :: rest => rest.foldl max a

/-- scanner.py line 168: `int(vol_series.tail(30).mean()) if len(vol_series) >= 5
else int(vol_series.mean() if len(vol_series) else 0)`. -/
def avgVolume (vols : List ℕ) : ℕ :=
  if 5 ≤ vols.length then (lastN 30 vols).sum / (lastN 30 vols).length
  else if vols.length = 0 then 0 else vols.sum / vols.length

/-! ### Signal evaluator (scanner.py lines 139-226) -/

/-- Today, `hist.iloc[-1]` (line 154). -/
def todayBar (hist : List Bar) : Bar := hist.getD (hist.length - 1) default

/-- Yesterday, `hist.iloc[-2]` (line 155). -/
def yesterdayBar (hist : List Bar) : Bar := hist.getD (hist.length - 2) default

/-- Percent change, `(price - prev_close) / prev_close * 100.0` (line 164). -/
def changePct (hist : List Bar) : ℚ :=
  ((todayBar hist).close - (yesterdayBar hist).close) / (yesterdayBar hist).close * 100

/-- The gap condition of line 184. -/
def gapB (hist : List Bar) : Bool :=
  decide (GAP_THRESHOLD ≤
    ((todayBar hist).openPrice - (yesterdayBar hist).close) / (yesterdayBar hist).close * 100)

/-- Unusual-volume condition, `unusual_vol` (line 170). -/
def unusualVolB (hist : List Bar) : Bool :=
  decide (0 < avgVolume (hist.map Bar.volume)) &&
  decide (VOLUME_MULTIPLIER * (avgVolume (hist.map Bar.volume) : ℚ) < ((todayBar hist).volume : ℚ))

/-- Recent high, `high20` (lines 173-175): `hist["High"].shift(1).tail(BREAKOUT_LOOKBACK).max()`,
i.e. the maximum high over the `BREAKOUT_LOOKBACK` bars before today, only
when at least `BREAKOUT_LOOKBACK + 1` bars exist. -/
def high20 (hist : List Bar) : Option ℚ :=
  if BREAKOUT_LOOKBACK + 1 ≤ hist.length then
    some (listMax (lastN BREAKOUT_LOOKBACK (hist.dropLast.map Bar.high)))
  else none

/-- Spec-side formulation, for comparison with `high20`: the highs of the
`BREAKOUT_LOOKBACK` bars immediately preceding today, today itself
excluded (bars at positions `length - 1 - BREAKOUT_LOOKBACK` up to
`length - 2`). -/
def priorWindowHighs (hist : List Bar) : List ℚ :=
  ((hist.take (hist.length - 1)).drop (hist.length - 1 - BREAKOUT_LOOKBACK)).map Bar.high

/-- Breakout condition, `breakout` (line 176). -/
def breakoutB (hist : List Bar) : Bool :=
  match high20 hist with
  | some h => decide (h < (todayBar hist).close)
  | none => false

/-- Positive-sentiment condition, `pos_news` (line 180). -/
def posNewsB (sentiment : Option ℚ) : Bool :=
  match sentiment with
  | some sv => decide (SENTIMENT_POSITIVE ≤ sv)
  | none => false

/-- The trigger list built at lines 183-191. -/
def triggersOf (hist : List Bar) (sentiment : Option ℚ) : List Trigger :=
  (if gapB hist then [Trigger.gap] else []) ++
  (if unusualVolB hist then [Trigger.unusualVol] else []) ++
  (if breakoutB hist then [Trigger.breakout] else []) ++
  (if posNewsB sentiment then [Trigger.positiveSentiment] else [])

/-- The newly-crossed thresholds loop of lines 194-198. -/
def newThresholds (change_pct : ℚ) (rec : AlertRec) : List ℤ :=
  THRESHOLDS.filter (fun th => decide ((th : ℚ) ≤ change_pct) && decide (th ∉ rec.thresholds))

/-- The pure computation of `analyze_ticker` once the history is known to be
usable (lines 154-219): derived scalars, the four triggers, the
newly-crossed thresholds and the pre-breakout decision. -/
def computeResult (ticker : String) (hist : List Bar) (sentiment : Option ℚ)
    (rec : AlertRec) : AnalyzeResult :=
  { ticker := ticker
    price := (todayBar hist).close
    change_pct := changePct hist
    vol := (todayBar hist).volume
    avg_vol := avgVolume (hist.map Bar.volume)
    triggers := triggersOf hist sentiment
    new_thresholds := newThresholds (changePct hist) rec
    pos_news := posNewsB sentiment
    sentiment := sentiment
    prebreak_hit := decide (2 ≤ (triggersOf hist sentiment).length) && !rec.prebreak }

/-- Evaluator `analyze_ticker` (scanner.py lines 139-226).  The fetch result carries
the possible exception of the yfinance call; the surrounding `try/except`
(lines 147, 223-226) turns it into `None`.  Early returns: history shorter
than 3 bars (line 151) and non-positive previous close (line 161); the
result is returned only when a new threshold or a fresh pre-breakout
exists (line 218), otherwise `None` (line 221). -/
def analyze_ticker (ticker : String) (fetch : Except String (List Bar))
    (sentiment : Option ℚ) (rec : AlertRec) : Option AnalyzeResult :=
  match fetch with
  | .error _ => none
  | .ok hist =>
    if hist.length < 3 then none
    else if (yesterdayBar hist).close ≤ 0 then none
    else
      let res := computeResult ticker hist sentiment rec
      if !res.new_thresholds.isEmpty || res.prebreak_hit then some res else none

/-! ### Batch scheduler (scanner.py lines 80-86) -/

/-- The chunking `[tickers[i:i+BATCH_SIZE] for i in range(0, len(tickers), BATCH_SIZE)]`
(line 84), generalised over the chunk size. -/
def chunkList (B : ℕ) : List α → List (List α)
  | [] => []
  | a :: rest => (a :: rest.take (B - 1)) :: chunkList B (rest.drop (B - 1))
termination_by l => l.length
decreasing_by simp only [List.length_drop, List.length_cons]; omega

/-- Scheduler `batches_for_run` (lines 80-86): time is Unix seconds; `slot = time // 300`,
the returned triple is `(batches[slot % len(batches)], idx, len(batches))`. -/
def batches_for_run (tickers : List String) (t : ℕ) : List String × ℕ × ℕ :=
  if tickers.isEmpty then ([], 0, 0)
  else
    let slot := t / 300
    let batches := chunkList BATCH_SIZE tickers
    let idx := slot % batches.length
    (batches.getD idx [], idx, batches.length)

/-! ### Orchestrator state and per-ticker step (scanner.py `main`, lines 229-300) -/

/-- One notification dispatched through `send_discord`: either a threshold
alert (lines 261-271) or a pre-breakout alert (lines 283-294). -/
inductive Notification where
  | threshold (ticker : String) (level : ℤ)
  | prebreak (ticker : String)
deriving DecidableEq, Repr

/-- The payload identifying a threshold notification (ticker and level);
a pre-breakout notification carries no level. -/
def notifLevel : Notification → Option (String × ℤ)
  | .threshold t l => some (t, l)
  | .prebreak _ => none

/-- The in-memory mutable state of one run: the `alerts_sent` dict
(association list, Python-dict key semantics) and the `hot_list` set
(list with membership semantics). -/
structure ScanState where
  alerts_sent : List (String × AlertRec)
  hot_list : List String
deriving DecidableEq, Repr

/-- Record lookup, `alerts_sent.get(ticker, \x7b\x7d)` with per-field defaults. -/
def lookupRec : List (String × AlertRec) → String → AlertRec
  | [], _ => ⟨[], false⟩
  | (k, v) :: rest, t => if k = t then v else lookupRec rest t

/-- Record update, `alerts_sent[ticker] = rec` on the association list. -/
def updateRec : List (String × AlertRec) → String → AlertRec → List (String × AlertRec)
  | [], t, r => [(t, r)]
  | (k, v) :: rest, t, r => if k = t then (k, r) :: rest else (k, v) :: updateRec rest t r

/-- Hot-list insertion, `hot_list.add(ticker)` on the set-as-list. -/
def addHot (l : List String) (t : String) : List String :=
  if t ∈ l then l else l ++ [t]

/-- Insertion into a sorted integer list. -/
def insertSorted (a : ℤ) : List ℤ → List ℤ
  | [] => [a]
  | b :: rest => if a ≤ b then a :: b :: rest else b :: insertSorted a rest

/-- Insertion sort; `sorted(...)` of Python on an integer list. -/
def sortInts : List ℤ → List ℤ
  | [] => []
  | a :: rest => insertSorted a (sortInts rest)

/-- Inputs of one ticker evaluation: the fetched history (or the exception
it raised) and the fetched sentiment. -/
structure TickerInput where
  ticker : String
  fetch : Except String (List Bar)
  sentiment : Option ℚ

/-- Threshold-alert handling of `main` (lines 255-276): record each newly
crossed level in a set union, send one notification per level, store the
sorted union back, add the ticker to the hot list. -/
def applyThresholds (deliver : Notification → Bool) (st : ScanState) (t : String)
    (res : AnalyzeResult) : ScanState × List (Notification × Bool) :=
  if res.new_thresholds.isEmpty then (st, [])
  else
    let rec0 := lookupRec st.alerts_sent t
    ({ alerts_sent := updateRec st.alerts_sent t
        { rec0 with thresholds := sortInts ((rec0.thresholds ++ res.new_thresholds).dedup) }
       hot_list := addHot st.hot_list t },
     res.new_thresholds.map (fun th =>
       (Notification.threshold t th, deliver (Notification.threshold t th))))

/-- Pre-breakout handling of `main` (lines 279-296): if the evaluation
reported a fresh pre-breakout and the latch is still unset, set it, send
one notification, and add the ticker to the hot list. -/
def applyPrebreak (deliver : Notification → Bool) (st : ScanState) (t : String)
    (res : AnalyzeResult) : ScanState × List (Notification × Bool) :=
  if res.prebreak_hit then
    let rec1 := lookupRec st.alerts_sent t
    if rec1.prebreak then (st, [])
    else
      ({ alerts_sent := updateRec st.alerts_sent t { rec1 with prebreak := true }
         hot_list := addHot st.hot_list t },
       [(Notification.prebreak t, deliver (Notification.prebreak t))])
  else (st, [])

/-- One iteration of the scan loop of `main` (lines 246-300): evaluate the
ticker against the current alert records, then apply the threshold and
pre-breakout branches.  Delivery outcomes are recorded next to each
notification but never influence the state, as in the source. -/
def processTicker (deliver : Notification → Bool) (st : ScanState) (inp : TickerInput) :
    ScanState × List (Notification × Bool) :=
  match analyze_ticker inp.ticker inp.fetch inp.sentiment (lookupRec st.alerts_sent inp.ticker) with
  | none => (st, [])
  | some res =>
    let p := applyThresholds deliver st inp.ticker res
    let q := applyPrebreak deliver p.1 inp.ticker res
    (q.1, p.2 ++ q.2)

/-- The scan loop over the whole scan set (and, by concatenating inputs,
over any number of successive runs, since state is threaded through). -/
def runTickers (deliver : Notification → Bool) (st : ScanState) :
    List TickerInput → ScanState × List (Notification × Bool)
  | [] => (st, [])
  | inp :: rest =>
    let p := processTicker deliver st inp
    let q := runTickers deliver p.1 rest
    (q.1, p.2 ++ q.2)

/-! ### Persistence (scanner.py lines 38-51 and 302-308) -/

/-- JSON documents as written by `json.dump` / read by `json.load`. -/
inductive Json where
  | num (n : ℤ)
  | str (s : String)
  | jbool (b : Bool)
  | arr (xs : List Json)
  | obj (fields : List (String × Json))

/-- The state document persisted at lines 302-308. -/
structure PersistedState where
  tickers : List String
  tickers_fetched_at : ℤ
  alerts_sent : List (String × AlertRec)
  hot_list : List String
  last_run : ℤ
deriving DecidableEq, Repr

def encodeRec (r : AlertRec) : Json :=
  .obj [("thresholds", .arr (r.thresholds.map Json.num)), ("prebreak", .jbool r.prebreak)]

/-- Serialisation `save_state` (lines 46-51) of the state dict. -/
def save_state (s : PersistedState) : Json :=
  .obj [("tickers", .arr (s.tickers.map Json.str)),
        ("tickers_fetched_at", .num s.tickers_fetched_at),
        ("alerts_sent", .obj (s.alerts_sent.map (fun p => (p.1, encodeRec p.2)))),
        ("hot_list", .arr (s.hot_list.map Json.str)),
        ("last_run", .num s.last_run)]

def jLookup : List (String × Json) → String → Option Json
  | [], _ => none
  | (k, v) :: rest, key => if k = key then some v else jLookup rest key

def asStr : Json → Option String
  | .str s => some s
  | _ => none

def asInt : Json → ℤ
  | .num n => n
  | _ => 0

def asBool : Json → Bool
  | .jbool b => b
  | _ => false

def decodeStrList : Json → List String
  | .arr xs => xs.filterMap asStr
  | _ => []

def decodeIntList : Json → List ℤ
  | .arr xs => xs.filterMap (fun j => match j with | .num n => some n | _ => none)
  | _ => []

def decodeRec : Json → AlertRec
  | .obj fields =>
    { thresholds := match jLookup fields "thresholds" with
        | some j => decodeIntList j
        | none => []
      prebreak := match jLookup fields "prebreak" with
        | some j => asBool j
        | none => false }
  | _ => ⟨[], false⟩

/-- Parsing `load_state` (lines 38-44) combined with the defaulted reads of `main`
(lines 231-232, 234): parse the persisted document back into the state,
with the same defaults for missing keys. -/
def load_state : Json → PersistedState
  | .obj fields =>
    { tickers := match jLookup fields "tickers" with
        | some j => decodeStrList j
        | none => []
      tickers_fetched_at := match jLookup fields "tickers_fetched_at" with
        | some j => asInt j
        | none => 0
      alerts_sent := match jLookup fields "alerts_sent" with
        | some (.obj fs) => fs.map (fun p => (p.1, decodeRec p.2))
        | _ => []
      hot_list := match jLookup fields "hot_list" with
        | some j => decodeStrList j
        | none => []
      last_run := match jLookup fields "last_run" with
        | some j => asInt j
        | none => 0 }
  | _ => ⟨[], 0, [], [], 0⟩

/-! ### Concrete inputs used by the example scenario and the witnesses -/

/-- The snapshot of the spec's example scenario: 25 prior bars with maximum
high 105 and previous close 100; today opens at 104 and closes at 106 on
5,000,000 shares.  The prior volumes are chosen so that the derived
average volume is exactly 1,000,000 (25·840000 + 5000000 = 26·1000000,
since the 30-bar tail mean of the source includes today's bar). -/
def histExample : List Bar :=
  List.replicate 25 ⟨100, 105, 95, 100, 840000⟩ ++ [⟨104, 106, 100, 106, 5000000⟩]

/-- A three-bar history: previous close 100, today closes at 106 on 10000
shares against prior volumes 1000, 1000. -/
def histSparse : List Bar :=
  [⟨100, 101, 99, 100, 1000⟩, ⟨100, 101, 99, 100, 1000⟩, ⟨100, 107, 99, 106, 10000⟩]

/-- The evaluation result on `histSparse` from an empty alert record. -/
def resSparse : AnalyzeResult :=
  { ticker := "ABC", price := 106, change_pct := 6, vol := 10000, avg_vol := 4000,
    triggers := [Trigger.unusualVol], new_thresholds := [5], pos_news := false,
    sentiment := none, prebreak_hit := false }

/-- A three-bar history whose percent change is 12. -/
def histUp12 : List Bar :=
  [⟨100, 101, 99, 100, 1000⟩, ⟨100, 101, 99, 100, 1000⟩, ⟨100, 113, 99, 112, 10000⟩]

/-- The evaluation result on `histUp12` from a record that already holds
threshold 5. -/
def resUp12 : AnalyzeResult :=
  { ticker := "ABC", price := 112, change_pct := 12, vol := 10000, avg_vol := 4000,
    triggers := [Trigger.unusualVol], new_thresholds := [10], pos_news := false,
    sentiment := none, prebreak_hit := false }

/-- A state whose ticker "T" already has the pre-breakout latch set. -/
def stLatched : ScanState := ⟨[("T", ⟨[], true⟩)], []⟩

/-- The empty scan state. -/
def stEmpty : ScanState := ⟨[], []⟩

/-! ### Basic lemmas about the evaluator -/

theorem analyze_error (ticker : String) (e : String) (sentiment : Option ℚ) (rec : AlertRec) :
    analyze_ticker ticker (.error e) sentiment rec = none := rfl

theorem analyze_ok_eq {ticker : String} {hist : List Bar} {sentiment : Option ℚ}
    {rec : AlertRec} {res : AnalyzeResult}
    (h : analyze_ticker ticker (.ok hist) sentiment rec = some res) :
    res = computeResult ticker hist sentiment rec := by
  simp only [analyze_ticker] at h
  split at h
  · exact absurd h (by simp)
  · split at h
    · exact absurd h (by simp)
    · split at h
      · exact (Option.some.inj h).symm
      · exact absurd h (by simp)

/-- C1: for every ticker and configured threshold level, if the level is
already present in the ticker's recorded thresholds, then any further
evaluation (in particular with the same or a lower percent change) yields
a `new_thresholds` list that does not contain that level, so the level
never re-fires. -/
theorem recorded_threshold_never_refires
    (ticker : String) (fetch : Except String (List Bar)) (sentiment : Option ℚ)
    (rec : AlertRec) (res : AnalyzeResult) (th : ℤ)
    (hmem : th ∈ rec.thresholds)
    (hres : analyze_ticker ticker fetch sentiment rec = some res) :
    th ∉ res.new_thresholds := by
  cases fetch with
  | error e => simp [analyze_ticker] at hres
  | ok hist =>
    have h := analyze_ok_eq hres
    subst h
    intro hmem2
    simp only [computeResult, newThresholds, List.mem_filter, Bool.and_eq_true,
      decide_eq_true_eq] at hmem2
    exact hmem2.2.2 hmem

/-- Witness for C1: with level 5 already recorded and a 12% move, the
evaluation fires threshold 10 but does not re-fire 5. -/
theorem recorded_threshold_never_refires_witness :
    (5 : ℤ) ∈ (AlertRec.mk [5] false).thresholds ∧ (5 : ℤ) ∉ resUp12.new_thresholds :=
  ⟨by decide,
   recorded_threshold_never_refires "ABC" (.ok histUp12) none (AlertRec.mk [5] false)
     resUp12 5 (by decide)
     (by norm_num [analyze_ticker, computeResult, histUp12, resUp12, avgVolume, lastN,
       listMax, THRESHOLDS, GAP_THRESHOLD, VOLUME_MULTIPLIER, SENTIMENT_POSITIVE,
       BREAKOUT_LOOKBACK, List.filter, todayBar, yesterdayBar, changePct, gapB,
       unusualVolB, high20, breakoutB, posNewsB, triggersOf, newThresholds])⟩

/-- C7: on the spec's example scenario (prevClose 100, open 104, close 106,
volume 5,000,000 against average 1,000,000, 25 prior bars with maximum
high 105, no prior alert record) the evaluator reports exactly the Gap,
Unusual-volume and Breakout triggers, a pre-breakout signal, percent
change 6, and threshold 5 newly crossed but not 10 or 20. -/
theorem example_scen_result :
    analyze_ticker "XYZ" (.ok histExample) none ⟨[], false⟩ =
      some { ticker := "XYZ", price := 106, change_pct := 6, vol := 5000000,
             avg_vol := 1000000,
             triggers := [Trigger.gap, Trigger.unusualVol, Trigger.breakout],
             new_thresholds := [5], pos_news := false, sentiment := none,
             prebreak_hit := true } := by
  norm_num [analyze_ticker, computeResult, histExample, avgVolume, lastN, listMax,
    THRESHOLDS, GAP_THRESHOLD, VOLUME_MULTIPLIER, SENTIMENT_POSITIVE,
    BREAKOUT_LOOKBACK, List.filter, List.replicate, todayBar, yesterdayBar,
    changePct, gapB, unusualVolB, high20, breakoutB, posNewsB, triggersOf,
    newThresholds]

/-- Counterexample for C8: on a three-bar history (fewer than 5 volume
points) the code does NOT skip averaging: it averages the 3 available
points (mean 4000) and the unusual-volume trigger fires from that
average, contrary to the claim that no 1-4 point average is used. -/
theorem avg_small_history_counterexample :
    analyze_ticker "ABC" (.ok histSparse) none ⟨[], false⟩ = some resSparse ∧
    histSparse.length < 5 ∧
    resSparse.avg_vol = (histSparse.map Bar.volume).sum / histSparse.length ∧
    Trigger.unusualVol ∈ resSparse.triggers := by
  refine ⟨?_, by decide, by decide, by decide⟩
  norm_num [analyze_ticker, computeResult, histSparse, resSparse, avgVolume, lastN,
    listMax, THRESHOLDS, GAP_THRESHOLD, VOLUME_MULTIPLIER, SENTIMENT_POSITIVE,
    BREAKOUT_LOOKBACK, List.filter, todayBar, yesterdayBar, changePct, gapB,
    unusualVolB, high20, breakoutB, posNewsB, triggersOf, newThresholds]

theorem mem_triggersOf (hist : List Bar) (s : Option ℚ) (tr : Trigger) :
    tr ∈ triggersOf hist s ↔
      ((tr = Trigger.gap ∧ gapB hist = true) ∨
       (tr = Trigger.unusualVol ∧ unusualVolB hist = true) ∨
       (tr = Trigger.breakout ∧ breakoutB hist = true) ∨
       (tr = Trigger.positiveSentiment ∧ posNewsB s = true)) := by
  unfold triggersOf
  cases gapB hist <;> cases unusualVolB hist <;> cases breakoutB hist <;>
    cases posNewsB s <;> cases tr <;> simp

/-- C8 (amended): when at least 5 volume points exist, `avgVolume` is the
floored mean of the last 30 volumes; when fewer than 5 points exist the
code does not skip averaging but takes the floored mean of all available
points, and the unusual-volume trigger compares today's volume against
whichever average was computed. -/
theorem avg_volume_semantics
    (ticker : String) (hist : List Bar) (sentiment : Option ℚ) (rec : AlertRec)
    (res : AnalyzeResult)
    (hres : analyze_ticker ticker (.ok hist) sentiment rec = some res) :
    (5 ≤ hist.length →
      res.avg_vol =
        (lastN 30 (hist.map Bar.volume)).sum / (lastN 30 (hist.map Bar.volume)).length) ∧
    (hist.length < 5 →
      res.avg_vol = (hist.map Bar.volume).sum / hist.length) ∧
    (Trigger.unusualVol ∈ res.triggers ↔
      0 < res.avg_vol ∧ VOLUME_MULTIPLIER * (res.avg_vol : ℚ) < ((todayBar hist).volume : ℚ)) := by
  have h := analyze_ok_eq hres
  subst h
  refine ⟨?_, ?_, ?_⟩
  · intro h5
    simp [computeResult, avgVolume, h5]
  · intro h5
    have hlen : (hist.map Bar.volume).length = hist.length := by simp
    simp only [computeResult, avgVolume, hlen]
    rw [if_neg (by omega)]
    by_cases h0 : hist.length = 0
    · rw [if_pos h0]
      rw [List.length_eq_zero.mp h0]
      simp
    · rw [if_neg h0]
  · simp only [computeResult]
    rw [mem_triggersOf]
    simp [unusualVolB]

/-- Witness for C8's amended statement: on the three-bar history, the
average volume is the mean of the three available points. -/
theorem avg_volume_semantics_witness :
    histSparse.length < 5 ∧
    resSparse.avg_vol = (histSparse.map Bar.volume).sum / histSparse.length :=
  ⟨by decide,
   (avg_volume_semantics "ABC" histSparse none ⟨[], false⟩ resSparse
     (by norm_num [analyze_ticker, computeResult, histSparse, resSparse, avgVolume,
       lastN, listMax, THRESHOLDS, GAP_THRESHOLD, VOLUME_MULTIPLIER,
       SENTIMENT_POSITIVE, BREAKOUT_LOOKBACK, List.filter, todayBar, yesterdayBar,
       changePct, gapB, unusualVolB, high20, breakoutB, posNewsB,
       triggersOf, newThresholds])).2.1 (by decide)⟩

theorem lastN_dropLast_highs (hist : List Bar) :
    lastN BREAKOUT_LOOKBACK (hist.dropLast.map Bar.high) = priorWindowHighs hist := by
  unfold lastN priorWindowHighs
  rw [List.dropLast_eq_take, ← List.map_drop, List.length_map, List.length_take]
  congr 2
  omega

/-- C4: the breakout trigger fires exactly when the snapshot has at least
`BREAKOUT_LOOKBACK + 1` (21) bars and today's close strictly exceeds the
maximum high over the `BREAKOUT_LOOKBACK` bars immediately preceding
today (today excluded).  In particular a close equal to that maximum does
not fire, and a snapshot of 20 or fewer bars never fires. -/
theorem breakout_trigger_iff (ticker : String) (hist : List Bar) (sentiment : Option ℚ)
    (rec : AlertRec) :
    Trigger.breakout ∈ (computeResult ticker hist sentiment rec).triggers ↔
      (BREAKOUT_LOOKBACK + 1 ≤ hist.length ∧
       listMax (priorWindowHighs hist) < (todayBar hist).close) := by
  have htr : (computeResult ticker hist sentiment rec).triggers = triggersOf hist sentiment := rfl
  rw [htr, mem_triggersOf]
  simp only [reduceCtorEq, false_and, false_or, or_false, true_and]
  unfold breakoutB high20
  rw [lastN_dropLast_highs]
  split_ifs with h
  · simp [h]
  · simp [h]

/-! ### Lemmas about the alert-record store and the orchestrator step -/

theorem lookupRec_updateRec_self (m : List (String × AlertRec)) (t : String) (r : AlertRec) :
    lookupRec (updateRec m t r) t = r := by
  induction m with
  | nil => simp [updateRec, lookupRec]
  | cons p rest ih =>
    obtain ⟨k, v⟩ := p
    by_cases hk : k = t
    · simp [updateRec, lookupRec, hk]
    · simp [updateRec, lookupRec, hk, ih]

theorem lookupRec_updateRec_ne (m : List (String × AlertRec)) (u t : String) (r : AlertRec)
    (h : t ≠ u) : lookupRec (updateRec m u r) t = lookupRec m t := by
  induction m with
  | nil => simp [updateRec, lookupRec, Ne.symm h]
  | cons p rest ih =>
    obtain ⟨k, v⟩ := p
    by_cases hk : k = u
    · subst hk
      simp [updateRec, lookupRec, Ne.symm h]
    · by_cases hkt : k = t
      · simp [updateRec, lookupRec, hk, hkt, h, ih]
      · simp [updateRec, lookupRec, hk, hkt, h, ih]

theorem mem_addHot_self (l : List String) (t : String) : t ∈ addHot l t := by
  unfold addHot
  split_ifs with h
  · exact h
  · simp

theorem mem_addHot_of_mem (l : List String) (u t : String) (h : t ∈ l) : t ∈ addHot l u := by
  unfold addHot
  split_ifs <;> simp [h]

theorem mem_insertSorted (a b : ℤ) (l : List ℤ) :
    a ∈ insertSorted b l ↔ a = b ∨ a ∈ l := by
  induction l with
  | nil => simp [insertSorted]
  | cons c rest ih =>
    unfold insertSorted
    split_ifs with h
    · simp
    · simp [ih]
      tauto

theorem mem_sortInts (a : ℤ) (l : List ℤ) : a ∈ sortInts l ↔ a ∈ l := by
  induction l with
  | nil => simp [sortInts]
  | cons b rest ih => simp [sortInts, mem_insertSorted, ih]

theorem applyThresholds_fst_indep (d1 d2 : Notification → Bool) (st : ScanState)
    (u : String) (res : AnalyzeResult) :
    (applyThresholds d1 st u res).1 = (applyThresholds d2 st u res).1 := by
  simp only [applyThresholds]
  split <;> rfl

theorem applyPrebreak_fst_indep (d1 d2 : Notification → Bool) (st : ScanState)
    (u : String) (res : AnalyzeResult) :
    (applyPrebreak d1 st u res).1 = (applyPrebreak d2 st u res).1 := by
  simp only [applyPrebreak]
  split_ifs <;> rfl

theorem applyThresholds_notifs (d : Notification → Bool) (st : ScanState)
    (u : String) (res : AnalyzeResult) :
    (applyThresholds d st u res).2.map Prod.fst =
      res.new_thresholds.map (Notification.threshold u) := by
  simp only [applyThresholds]
  split
  · next hE => simp [List.isEmpty_iff.mp hE]
  · simp [List.map_map, Function.comp]

theorem applyPrebreak_notifs_sub (d : Notification → Bool) (st : ScanState)
    (u : String) (res : AnalyzeResult) (n : Notification) :
    n ∈ (applyPrebreak d st u res).2.map Prod.fst → n = Notification.prebreak u := by
  simp only [applyPrebreak]
  split_ifs <;> simp

theorem applyThresholds_lookup_ne (d : Notification → Bool) (st : ScanState)
    (u : String) (res : AnalyzeResult) (t : String) (h : t ≠ u) :
    lookupRec (applyThresholds d st u res).1.alerts_sent t = lookupRec st.alerts_sent t := by
  simp only [applyThresholds]
  split
  · rfl
  · simp [lookupRec_updateRec_ne _ _ _ _ h]

theorem applyPrebreak_lookup_ne (d : Notification → Bool) (st : ScanState)
    (u : String) (res : AnalyzeResult) (t : String) (h : t ≠ u) :
    lookupRec (applyPrebreak d st u res).1.alerts_sent t = lookupRec st.alerts_sent t := by
  simp only [applyPrebreak]
  split_ifs <;> simp [lookupRec_updateRec_ne _ _ _ _ h]

theorem applyThresholds_prebreak (d : Notification → Bool) (st : ScanState)
    (u : String) (res : AnalyzeResult) (t : String) :
    (lookupRec (applyThresholds d st u res).1.alerts_sent t).prebreak =
      (lookupRec st.alerts_sent t).prebreak := by
  by_cases h : t = u
  · subst h
    simp only [applyThresholds]
    split
    · rfl
    · simp [lookupRec_updateRec_self]
  · rw [applyThresholds_lookup_ne _ _ _ _ _ h]

theorem applyPrebreak_of_hit_false (d : Notification → Bool) (st : ScanState)
    (u : String) (res : AnalyzeResult) (h : res.prebreak_hit = false) :
    applyPrebreak d st u res = (st, []) := by
  simp [applyPrebreak, h]

theorem computeResult_prebreak_hit_of_latch (ticker : String) (hist : List Bar)
    (sentiment : Option ℚ) {rec : AlertRec} (h : rec.prebreak = true) :
    (computeResult ticker hist sentiment rec).prebreak_hit = false := by
  simp [computeResult, h]

theorem analyze_prebreak_hit_false {ticker : String} {fetch : Except String (List Bar)}
    {sentiment : Option ℚ} {rec : AlertRec} {res : AnalyzeResult}
    (hrec : rec.prebreak = true)
    (hres : analyze_ticker ticker fetch sentiment rec = some res) :
    res.prebreak_hit = false := by
  cases fetch with
  | error e => simp [analyze_ticker] at hres
  | ok hist =>
    rw [analyze_ok_eq hres]
    exact computeResult_prebreak_hit_of_latch _ _ _ hrec

theorem processTicker_none (d : Notification → Bool) (st : ScanState) (inp : TickerInput)
    (hA : analyze_ticker inp.ticker inp.fetch inp.sentiment (lookupRec st.alerts_sent inp.ticker) = none) :
    processTicker d st inp = (st, []) := by
  simp only [processTicker, hA]

theorem processTicker_some (d : Notification → Bool) (st : ScanState) (inp : TickerInput)
    (res : AnalyzeResult)
    (hA : analyze_ticker inp.ticker inp.fetch inp.sentiment (lookupRec st.alerts_sent inp.ticker) = some res) :
    processTicker d st inp =
      ((applyPrebreak d (applyThresholds d st inp.ticker res).1 inp.ticker res).1,
       (applyThresholds d st inp.ticker res).2 ++
         (applyPrebreak d (applyThresholds d st inp.ticker res).1 inp.ticker res).2) := by
  simp only [processTicker, hA]

theorem processTicker_latch (d : Notification → Bool) (st : ScanState) (inp : TickerInput)
    (t : String) (h : (lookupRec st.alerts_sent t).prebreak = true) :
    (lookupRec (processTicker d st inp).1.alerts_sent t).prebreak = true ∧
    Notification.prebreak t ∉ (processTicker d st inp).2.map Prod.fst := by
  cases hA : analyze_ticker inp.ticker inp.fetch inp.sentiment (lookupRec st.alerts_sent inp.ticker) with
  | none => rw [processTicker_none d st inp hA]; exact ⟨h, by simp⟩
  | some res =>
    rw [processTicker_some d st inp res hA]
    by_cases ht : t = inp.ticker
    · subst ht
      have hpb : res.prebreak_hit = false := analyze_prebreak_hit_false h hA
      rw [applyPrebreak_of_hit_false _ _ _ _ hpb]
      constructor
      · rw [applyThresholds_prebreak]
        exact h
      · rw [List.map_append, List.mem_append]
        rintro (hmem | hmem)
        · rw [applyThresholds_notifs] at hmem
          simp at hmem
        · simp at hmem
    · constructor
      · rw [applyPrebreak_lookup_ne _ _ _ _ _ ht, applyThresholds_lookup_ne _ _ _ _ _ ht]
        exact h
      · rw [List.map_append, List.mem_append]
        rintro (hmem | hmem)
        · rw [applyThresholds_notifs] at hmem
          simp at hmem
        · exact ht (Notification.prebreak.inj (applyPrebreak_notifs_sub _ _ _ _ _ hmem))

theorem runTickers_latch (d : Notification → Bool) (st : ScanState)
    (inputs : List TickerInput) (t : String)
    (h : (lookupRec st.alerts_sent t).prebreak = true) :
    (lookupRec (runTickers d st inputs).1.alerts_sent t).prebreak = true ∧
    Notification.prebreak t ∉ (runTickers d st inputs).2.map Prod.fst := by
  induction inputs generalizing st with
  | nil => exact ⟨h, by simp [runTickers]⟩
  | cons inp rest ih =>
    have hstep := processTicker_latch d st inp t h
    have hrec := ih (processTicker d st inp).1 hstep.1
    refine ⟨hrec.1, ?_⟩
    simp only [runTickers, List.map_append, List.mem_append]
    rintro (hmem | hmem)
    · exact hstep.2 hmem
    · exact hrec.2 hmem

/-- C2: once the pre-breakout latch is set for a ticker, processing any
further inputs (any number of runs, the state being threaded through)
never resets it, never dispatches another pre-breakout notification for
that ticker, and any further evaluation of that ticker against the
resulting state reports no pre-breakout signal, no matter how many
triggers are simultaneously true. -/
theorem prebreak_latch_one_shot (d : Notification → Bool) (st : ScanState)
    (inputs : List TickerInput) (t : String)
    (h : (lookupRec st.alerts_sent t).prebreak = true) :
    (lookupRec (runTickers d st inputs).1.alerts_sent t).prebreak = true ∧
    Notification.prebreak t ∉ (runTickers d st inputs).2.map Prod.fst ∧
    (∀ (fetch : Except String (List Bar)) (sentiment : Option ℚ) (res : AnalyzeResult),
      analyze_ticker t fetch sentiment
          (lookupRec (runTickers d st inputs).1.alerts_sent t) = some res →
      res.prebreak_hit = false) := by
  obtain ⟨h1, h2⟩ := runTickers_latch d st inputs t h
  exact ⟨h1, h2, fun fetch sentiment res hres => analyze_prebreak_hit_false h1 hres⟩

/-- Witness for C2: a state whose ticker "T" has the latch set, run over
one further input for "T"; the latch is still set afterwards. -/
theorem prebreak_latch_one_shot_witness :
    (lookupRec stLatched.alerts_sent "T").prebreak = true ∧
    (lookupRec (runTickers (fun _ => true) stLatched
        [⟨"T", .ok histSparse, none⟩]).1.alerts_sent "T").prebreak = true :=
  ⟨by simp [stLatched, lookupRec],
   (prebreak_latch_one_shot (fun _ => true) stLatched [⟨"T", .ok histSparse, none⟩] "T"
     (by simp [stLatched, lookupRec])).1⟩

theorem filterMap_notifLevel_thresholds (u : String) (l : List ℤ) :
    (l.map (Notification.threshold u)).filterMap notifLevel = l.map (fun th => (u, th)) := by
  induction l with
  | nil => rfl
  | cons a rest ih => simp [notifLevel, ih]

/-- C5: when an evaluation yields newly-crossed threshold levels, the
orchestrator step dispatches exactly one threshold notification per
newly-crossed level, each carrying its own level (and nothing else
carries a level). -/
theorem one_notification_per_level (d : Notification → Bool) (st : ScanState)
    (inp : TickerInput) (res : AnalyzeResult)
    (hres : analyze_ticker inp.ticker inp.fetch inp.sentiment
      (lookupRec st.alerts_sent inp.ticker) = some res) :
    ((processTicker d st inp).2.map Prod.fst).filterMap notifLevel =
      res.new_thresholds.map (fun th => (inp.ticker, th)) := by
  rw [processTicker_some d st inp res hres, List.map_append, List.filterMap_append,
    applyThresholds_notifs, filterMap_notifLevel_thresholds]
  have h2 : ((applyPrebreak d (applyThresholds d st inp.ticker res).1 inp.ticker res).2.map
      Prod.fst).filterMap notifLevel = [] := by
    simp only [applyPrebreak]
    split_ifs <;> simp [notifLevel]
  rw [h2, List.append_nil]

/-- Witness for C5 at the three-bar history: one threshold notification,
for level 5. -/
theorem one_notification_per_level_witness :
    ((processTicker (fun _ => false) stEmpty ⟨"ABC", .ok histSparse, none⟩).2.map
        Prod.fst).filterMap notifLevel =
      resSparse.new_thresholds.map (fun th => ("ABC", th)) :=
  one_notification_per_level (fun _ => false) stEmpty ⟨"ABC", .ok histSparse, none⟩ resSparse
    (by norm_num [analyze_ticker, computeResult, histSparse, resSparse, stEmpty, lookupRec,
      avgVolume, lastN, listMax, THRESHOLDS, GAP_THRESHOLD, VOLUME_MULTIPLIER,
      SENTIMENT_POSITIVE, BREAKOUT_LOOKBACK, List.filter, todayBar, yesterdayBar,
      changePct, gapB, unusualVolB, high20, breakoutB, posNewsB, triggersOf, newThresholds])

theorem applyThresholds_lookup_self (d : Notification → Bool) (st : ScanState)
    (u : String) (res : AnalyzeResult) (h : res.new_thresholds ≠ []) :
    lookupRec (applyThresholds d st u res).1.alerts_sent u =
      { lookupRec st.alerts_sent u with
        thresholds :=
          sortInts (((lookupRec st.alerts_sent u).thresholds ++ res.new_thresholds).dedup) } := by
  simp only [applyThresholds]
  rw [if_neg (by simpa [List.isEmpty_iff] using h)]
  simp [lookupRec_updateRec_self]

theorem applyPrebreak_thresholds (d : Notification → Bool) (st : ScanState)
    (u : String) (res : AnalyzeResult) (t : String) :
    (lookupRec (applyPrebreak d st u res).1.alerts_sent t).thresholds =
      (lookupRec st.alerts_sent t).thresholds := by
  by_cases h : t = u
  · subst h
    simp only [applyPrebreak]
    split_ifs <;> simp [lookupRec_updateRec_self]
  · rw [applyPrebreak_lookup_ne _ _ _ _ _ h]

theorem applyPrebreak_sets_latch (d : Notification → Bool) (st : ScanState)
    (u : String) (res : AnalyzeResult) (h : res.prebreak_hit = true) :
    (lookupRec (applyPrebreak d st u res).1.alerts_sent u).prebreak = true := by
  simp only [applyPrebreak, h]
  by_cases h2 : (lookupRec st.alerts_sent u).prebreak
  · simp [h2]
  · simp [h2, lookupRec_updateRec_self]

theorem applyThresholds_hot_self (d : Notification → Bool) (st : ScanState)
    (u : String) (res : AnalyzeResult) (h : res.new_thresholds ≠ []) :
    u ∈ (applyThresholds d st u res).1.hot_list := by
  simp only [applyThresholds]
  rw [if_neg (by simpa [List.isEmpty_iff] using h)]
  exact mem_addHot_self _ _

theorem applyPrebreak_hot_mono (d : Notification → Bool) (st : ScanState)
    (u : String) (res : AnalyzeResult) (x : String) (h : x ∈ st.hot_list) :
    x ∈ (applyPrebreak d st u res).1.hot_list := by
  simp only [applyPrebreak]
  split_ifs <;> simp [mem_addHot_of_mem, h]

theorem applyPrebreak_hot_self (d : Notification → Bool) (st : ScanState)
    (u : String) (res : AnalyzeResult) (hhit : res.prebreak_hit = true)
    (hlatch : (lookupRec st.alerts_sent u).prebreak = false) :
    u ∈ (applyPrebreak d st u res).1.hot_list := by
  simp only [applyPrebreak, hhit]
  simp [hlatch, mem_addHot_self]

theorem analyze_hit_latch {ticker : String} {fetch : Except String (List Bar)}
    {sentiment : Option ℚ} {rec : AlertRec} {res : AnalyzeResult}
    (hres : analyze_ticker ticker fetch sentiment rec = some res)
    (hhit : res.prebreak_hit = true) : rec.prebreak = false := by
  by_contra h
  have hlatch : rec.prebreak = true := by
    cases hb : rec.prebreak
    · exact absurd hb h
    · rfl
  rw [analyze_prebreak_hit_false hlatch hres] at hhit
  exact Bool.false_ne_true hhit

/-- C6: on a positive signal, the in-memory updates (recording the newly
crossed levels, setting the pre-breakout latch, adding the ticker to the
hot list) are applied regardless of the delivery outcomes: the resulting
state is identical under any two delivery oracles, and all three
mutations are present even when every delivery fails. -/
theorem updates_survive_delivery_failure (d1 d2 : Notification → Bool)
    (st : ScanState) (inp : TickerInput) (res : AnalyzeResult)
    (hres : analyze_ticker inp.ticker inp.fetch inp.sentiment
      (lookupRec st.alerts_sent inp.ticker) = some res) :
    (processTicker d1 st inp).1 = (processTicker d2 st inp).1 ∧
    (∀ th ∈ res.new_thresholds,
      th ∈ (lookupRec (processTicker d1 st inp).1.alerts_sent inp.ticker).thresholds) ∧
    (res.prebreak_hit = true →
      (lookupRec (processTicker d1 st inp).1.alerts_sent inp.ticker).prebreak = true) ∧
    ((res.new_thresholds ≠ [] ∨ res.prebreak_hit = true) →
      inp.ticker ∈ (processTicker d1 st inp).1.hot_list) := by
  rw [processTicker_some d1 st inp res hres, processTicker_some d2 st inp res hres]
  refine ⟨?_, ?_, ?_, ?_⟩
  · have e1 : (applyThresholds d1 st inp.ticker res).1 = (applyThresholds d2 st inp.ticker res).1 :=
      applyThresholds_fst_indep d1 d2 st inp.ticker res
    rw [e1]
    exact applyPrebreak_fst_indep d1 d2 _ inp.ticker res
  · intro th hth
    rw [applyPrebreak_thresholds,
      applyThresholds_lookup_self d1 st inp.ticker res (by intro hE; rw [hE] at hth; simp at hth)]
    simp only [mem_sortInts, List.mem_dedup, List.mem_append]
    exact Or.inr hth
  · intro hhit
    exact applyPrebreak_sets_latch d1 _ inp.ticker res hhit
  · rintro (hne | hhit)
    · exact applyPrebreak_hot_mono d1 _ inp.ticker res inp.ticker
        (applyThresholds_hot_self d1 st inp.ticker res hne)
    · refine applyPrebreak_hot_self d1 _ inp.ticker res hhit ?_
      have h0 : (lookupRec st.alerts_sent inp.ticker).prebreak = false :=
        analyze_hit_latch hres hhit
      rw [applyThresholds_prebreak]
      exact h0

/-- Witness for C6: with an all-failing delivery oracle, level 5 is still
recorded for "ABC" after the step. -/
theorem updates_survive_delivery_failure_witness :
    (5 : ℤ) ∈ resSparse.new_thresholds ∧
    (5 : ℤ) ∈ (lookupRec (processTicker (fun _ => false) stEmpty
        ⟨"ABC", .ok histSparse, none⟩).1.alerts_sent "ABC").thresholds :=
  ⟨by decide,
   (updates_survive_delivery_failure (fun _ => false) (fun _ => true) stEmpty
     ⟨"ABC", .ok histSparse, none⟩ resSparse
     (by norm_num [analyze_ticker, computeResult, histSparse, resSparse, stEmpty, lookupRec,
       avgVolume, lastN, listMax, THRESHOLDS, GAP_THRESHOLD, VOLUME_MULTIPLIER,
       SENTIMENT_POSITIVE, BREAKOUT_LOOKBACK, List.filter, todayBar, yesterdayBar,
       changePct, gapB, unusualVolB, high20, breakoutB, posNewsB, triggersOf,
       newThresholds])).2.1 5 (by decide)⟩

/-- C9: an exception raised while fetching or computing one ticker's
signals is caught and yields no signal for that ticker (no state change,
no notification), and the run over the remaining tickers proceeds exactly
as if the failing ticker were absent from the scan set. -/
theorem ticker_failure_isolated (d : Notification → Bool) (st : ScanState)
    (pre post : List TickerInput) (t : String) (e : String) (s : Option ℚ) :
    processTicker d st ⟨t, .error e, s⟩ = (st, []) ∧
    runTickers d st (pre ++ ⟨t, .error e, s⟩ :: post) = runTickers d st (pre ++ post) := by
  have hstep : ∀ st' : ScanState, processTicker d st' ⟨t, .error e, s⟩ = (st', []) :=
    fun st' => processTicker_none d st' ⟨t, .error e, s⟩ rfl
  refine ⟨hstep st, ?_⟩
  induction pre generalizing st with
  | nil => simp [runTickers, hstep]
  | cons x xs ih =>
    simp only [List.cons_append, runTickers, List.append_eq]
    rw [ih]

/-! ### Persistence round trip -/

theorem decodeIntList_encode (l : List ℤ) :
    decodeIntList (.arr (l.map Json.num)) = l := by
  simp only [decodeIntList]
  induction l with
  | nil => rfl
  | cons a rest ih => simp [ih]

theorem decodeRec_encodeRec (r : AlertRec) : decodeRec (encodeRec r) = r := by
  obtain ⟨ths, pb⟩ := r
  simp [decodeRec, encodeRec, jLookup, decodeIntList_encode, asBool]

theorem filterMap_asStr_comp (l : List String) :
    List.filterMap (asStr ∘ Json.str) l = l := by
  induction l with
  | nil => rfl
  | cons a rest ih => simp [Function.comp, asStr, ih]

theorem map_decode_encode_comp (l : List (String × AlertRec)) :
    List.map ((fun p => (p.1, decodeRec p.2)) ∘ fun p => (p.1, encodeRec p.2)) l = l := by
  induction l with
  | nil => rfl
  | cons a rest ih => simp [Function.comp, decodeRec_encodeRec, ih]

theorem load_save (s : PersistedState) : load_state (save_state s) = s := by
  obtain ⟨tk, tfa, al, hl, lr⟩ := s
  simp [load_state, save_state, jLookup, decodeStrList, asInt,
    filterMap_asStr_comp, map_decode_encode_comp]

/-- C10: saving the persisted state and loading it back is lossless: the
round trip reproduces the alerts mapping, a hot list with the same
members, and the tickers sequence in its original order. -/
theorem persisted_state_roundtrip (s : PersistedState) :
    load_state (save_state s) = s ∧
    (load_state (save_state s)).alerts_sent = s.alerts_sent ∧
    (∀ x, x ∈ (load_state (save_state s)).hot_list ↔ x ∈ s.hot_list) ∧
    (load_state (save_state s)).tickers = s.tickers := by
  have h := load_save s
  rw [h]
  exact ⟨rfl, rfl, fun x => Iff.rfl, rfl⟩

/-! ### Batch scheduler determinism and coverage -/

theorem chunkList_flatten (B : ℕ) : ∀ l : List α, (chunkList B l).flatten = l
  | [] => by rw [chunkList]; rfl
  | a :: rest => by
    rw [chunkList, List.flatten_cons, chunkList_flatten B (rest.drop (B - 1))]
    simp [List.take_append_drop]
termination_by l => l.length
decreasing_by simp only [List.length_drop, List.length_cons]; omega

theorem chunkList_ne_nil (B : ℕ) (l : List α) (h : l ≠ []) : chunkList B l ≠ [] := by
  cases l with
  | nil => exact absurd rfl h
  | cons a rest => rw [chunkList]; simp

theorem map_getD_range (c : List α) (d : α) :
    (List.range c.length).map (fun i => c.getD i d) = c := by
  induction c with
  | nil => rfl
  | cons a rest ih =>
    rw [List.length_cons, List.range_succ_eq_map, List.map_cons, List.map_map]
    have hc : ((fun i => (a :: rest).getD i d) ∘ Nat.succ) = fun i => rest.getD i d := by
      funext i
      rfl
    rw [hc, ih]
    rfl

theorem residues_perm (s k : ℕ) (hk : 0 < k) :
    List.Perm ((List.range k).map fun j => (s + j) % k) (List.range k) := by
  apply List.perm_of_nodup_nodup_toFinset_eq
  · refine List.Nodup.map_on ?_ (List.nodup_range k)
    intro x hx y hy hxy
    have hx' : x < k := List.mem_range.mp hx
    have hy' : y < k := List.mem_range.mp hy
    have hm : x ≡ y [MOD k] := Nat.ModEq.add_left_cancel' s hxy
    rwa [Nat.ModEq, Nat.mod_eq_of_lt hx', Nat.mod_eq_of_lt hy'] at hm
  · exact List.nodup_range k
  · apply List.toFinset.ext
    intro m
    simp only [List.mem_map, List.mem_range]
    constructor
    · rintro ⟨j, hj, rfl⟩
      exact Nat.mod_lt _ hk
    · intro hm
      have hr : s % k < k := Nat.mod_lt _ hk
      refine ⟨(m + k - s % k) % k, Nat.mod_lt _ hk, ?_⟩
      have e1 : (s + (m + k - s % k) % k) % k = (s + (m + k - s % k)) % k :=
        Nat.ModEq.add_left s (Nat.mod_modEq _ _)
      have e2 : (s + (m + k - s % k)) % k = (s % k + (m + k - s % k)) % k :=
        Nat.ModEq.add_right _ ((Nat.mod_modEq s k).symm)
      have e3 : s % k + (m + k - s % k) = m + k := by omega
      rw [e1, e2, e3, Nat.add_mod_right, Nat.mod_eq_of_lt hm]

theorem perm_flatten_of_perm {l1 l2 : List (List α)} (h : List.Perm l1 l2) :
    List.Perm l1.flatten l2.flatten := by
  induction h with
  | nil => exact List.Perm.refl _
  | cons x h ih => simpa using ih.append_left x
  | swap x y l =>
    simp only [List.flatten_cons]
    rw [← List.append_assoc, ← List.append_assoc]
    exact (List.perm_append_comm).append_right _
  | trans h1 h2 ih1 ih2 => exact ih1.trans ih2

/-- C3: for a non-empty universe, any two invocations whose times fall in
the same 300-second window select the identical batch, and the batches
selected over `chunkCount` consecutive windows (starting from any window)
together contain every symbol of the universe exactly once. -/
theorem batch_scheduler_correct (tickers : List String) (hne : tickers ≠ []) :
    (∀ t1 t2 : ℕ, t1 / 300 = t2 / 300 →
      batches_for_run tickers t1 = batches_for_run tickers t2) ∧
    (∀ t0 : ℕ,
      List.Perm
        (((List.range (batches_for_run tickers t0).2.2).map
          (fun j => (batches_for_run tickers (t0 + 300 * j)).1)).flatten)
        tickers) := by
  have hne' : tickers.isEmpty = false := by
    cases tickers
    · exact absurd rfl hne
    · rfl
  have hk : 0 < (chunkList BATCH_SIZE tickers).length := by
    cases hc : chunkList BATCH_SIZE tickers with
    | nil => exact absurd hc (chunkList_ne_nil _ _ hne)
    | cons a rest => simp
  constructor
  · intro t1 t2 h
    simp only [batches_for_run, hne', Bool.false_eq_true, if_false, h]
  · intro t0
    have hbk : (batches_for_run tickers t0).2.2 = (chunkList BATCH_SIZE tickers).length := by
      simp only [batches_for_run, hne', Bool.false_eq_true, if_false]
    rw [hbk]
    have hsel : ∀ j : ℕ, (batches_for_run tickers (t0 + 300 * j)).1 =
        (chunkList BATCH_SIZE tickers).getD
          ((t0 / 300 + j) % (chunkList BATCH_SIZE tickers).length) [] := by
      intro j
      simp only [batches_for_run, hne', Bool.false_eq_true, if_false]
      rw [Nat.add_mul_div_left t0 j (by norm_num)]
    have hcomp : (fun j => (batches_for_run tickers (t0 + 300 * j)).1) =
        ((fun i => (chunkList BATCH_SIZE tickers).getD i []) ∘
          (fun j => (t0 / 300 + j) % (chunkList BATCH_SIZE tickers).length)) := by
      funext j
      rw [hsel j]
      rfl
    rw [hcomp, ← List.map_map]
    have hperm := (residues_perm (t0 / 300) (chunkList BATCH_SIZE tickers).length hk).map
      (fun i => (chunkList BATCH_SIZE tickers).getD i [])
    rw [map_getD_range] at hperm
    refine (perm_flatten_of_perm hperm).trans ?_
    rw [chunkList_flatten]

/-- Witness for C3: a concrete three-symbol universe; times 30 and 200 lie
in the same window. -/
theorem batch_scheduler_correct_witness :
    (["A", "B", "C"] : List String) ≠ [] ∧
    batches_for_run ["A", "B", "C"] 30 = batches_for_run ["A", "B", "C"] 200 :=
  ⟨by simp,
   (batch_scheduler_correct ["A", "B", "C"] (by simp)).1 30 200 (by norm_num)⟩

end Scanner
